import Mathlib

/-!
Verification of the raytracer-wasm driver (`www/index.js`) against its
natural-language specification.

The repository's only visible source file is the JavaScript driver: it builds a
world and a camera through the wasm engine, and on each click of the render
button walks the 600x300 raster one column per `setTimeout` task, calling
`wasm.color_at(world, camera, i, j)` once per pixel and storing the returned
color into the canvas through a `Uint8ClampedArray`.

The wasm engine itself is not part of the repository sources, so the data model
and `color_at` are modelled from the spec (their doc comments say so); the
driver loop, the byte quantization, the scheduling and the two click handlers
are embedded from `index.js`.  JS floating-point numbers are modelled as
rationals.
-/

namespace Raytracer

/-- RGB color returned by the engine; each JS float component is modelled as a
rational. -/
structure Color where
  red : ℚ
  green : ℚ
  blue : ℚ
deriving DecidableEq

/-- Modelled from the spec: 3-component vector/point of the engine data model
(the engine is wasm, not in the repository sources). -/
structure V3 where
  x : ℚ
  y : ℚ
  z : ℚ
deriving DecidableEq

def V3.dot (a b : V3) : ℚ := a.x * b.x + a.y * b.y + a.z * b.z

def V3.sub (a b : V3) : V3 := ⟨a.x - b.x, a.y - b.y, a.z - b.z⟩

def V3.add (a b : V3) : V3 := ⟨a.x + b.x, a.y + b.y, a.z + b.z⟩

def V3.neg (a : V3) : V3 := ⟨-a.x, -a.y, -a.z⟩

def V3.smul (k : ℚ) (a : V3) : V3 := ⟨k * a.x, k * a.y, k * a.z⟩

/-- Modelled from the spec: Phong material parameters. -/
structure Material where
  color : Color
  ambient : ℚ
  diffuse : ℚ
  specular : ℚ
  shininess : ℕ
deriving DecidableEq

/-- Modelled from the spec: a unit sphere at the local origin with the default
identity transform (the only shape configuration `create_world` uses). -/
structure Sphere where
  material : Material
deriving DecidableEq

/-- Modelled from the spec: a point light source. -/
structure PointLight where
  position : V3
  intensity : Color
deriving DecidableEq

/-- Modelled from the spec: the scene, a collection of shapes plus lights. -/
structure World where
  spheres : List Sphere
  lights : List PointLight
deriving DecidableEq

/-- Modelled from the spec: camera with raster size and the cached derived
values half-width, half-height and pixel size. -/
structure Camera where
  width : ℕ
  height : ℕ
  halfWidth : ℚ
  halfHeight : ℚ
  pixelSize : ℚ
deriving DecidableEq

/-- Modelled from the spec: the default matte white material. -/
def defaultMaterial : Material :=
  { color := ⟨1, 1, 1⟩, ambient := 1/10, diffuse := 9/10, specular := 9/10,
    shininess := 200 }

/-- Modelled from the spec: `create_world`, the wasm constructor of the default
scene — one unit sphere at the origin with the default matte material and one
white point light at (-10, 10, -10). -/
def create_world : World :=
  { spheres := [{ material := defaultMaterial }],
    lights := [{ position := ⟨-10, 10, -10⟩, intensity := ⟨1, 1, 1⟩ }] }

/-- Modelled from the spec: `create_camera(width, height)`, the wasm camera
constructor; the engine-chosen default field of view is taken as pi/2, so the
half-view `tan(fov/2)` is exactly 1, and the view transform is the identity. -/
def create_camera (w h : ℕ) : Camera :=
  let halfView : ℚ := 1
  let halfWidth : ℚ := if h ≤ w then halfView else halfView * w / h
  let halfHeight : ℚ := if h ≤ w then halfView * h / w else halfView
  { width := w, height := h, halfWidth := halfWidth, halfHeight := halfHeight,
    pixelSize := halfWidth * 2 / w }

/-- Modelled from the spec: a ray, origin plus (not necessarily unit)
direction. -/
structure Ray where
  origin : V3
  direction : V3
deriving DecidableEq

/-- Modelled from the spec: `ray.position(t) = origin + direction * t`. -/
def Ray.position (r : Ray) (t : ℚ) : V3 := V3.add r.origin (V3.smul t r.direction)

/-- Modelled from the spec: vector normalization; the square root is abstracted
as a parameter `sq` since exact real arithmetic is not available to the
model. -/
def normalizeWith (sq : ℚ → ℚ) (v : V3) : V3 :=
  let m := sq (V3.dot v v)
  ⟨v.x / m, v.y / m, v.z / m⟩

/-- Modelled from the spec: reflection of `v` about the normal `n`. -/
def reflectV (v n : V3) : V3 := V3.sub v (V3.smul (2 * V3.dot v n) n)

/-- Modelled from the spec: `ray_for_pixel` with an identity view transform —
the camera sits at the origin looking down -z with the image plane at z = -1,
and the pixel center is sampled. -/
def ray_for_pixel (sq : ℚ → ℚ) (c : Camera) (px py : ℕ) : Ray :=
  let worldX := c.halfWidth - ((px : ℚ) + 1/2) * c.pixelSize
  let worldY := c.halfHeight - ((py : ℚ) + 1/2) * c.pixelSize
  let origin : V3 := ⟨0, 0, 0⟩
  { origin := origin,
    direction := normalizeWith sq (V3.sub ⟨worldX, worldY, -1⟩ origin) }

/-- Modelled from the spec: intersection of a ray with the unit sphere — the
quadratic's two roots when the discriminant is nonnegative, none otherwise. -/
def sphereIntersect (sq : ℚ → ℚ) (r : Ray) : List ℚ :=
  let a := V3.dot r.direction r.direction
  let b := 2 * V3.dot r.direction r.origin
  let c := V3.dot r.origin r.origin - 1
  let disc := b ^ 2 - 4 * a * c
  if disc < 0 then []
  else [(-b - sq disc) / (2 * a), (-b + sq disc) / (2 * a)]

/-- Modelled from the spec: keep the candidate with least strictly positive t. -/
def hitCandidate (cands : List (ℚ × Sphere)) : Option (ℚ × Sphere) :=
  cands.foldl
    (fun acc c =>
      match acc with
      | none => if 0 < c.1 then some c else none
      | some b => if 0 < c.1 ∧ c.1 < b.1 then some c else some b)
    none

/-- Modelled from the spec: componentwise color product. -/
def Color.mul (a b : Color) : Color := ⟨a.red * b.red, a.green * b.green, a.blue * b.blue⟩

/-- Modelled from the spec: componentwise color sum. -/
def Color.add (a b : Color) : Color := ⟨a.red + b.red, a.green + b.green, a.blue + b.blue⟩

/-- Modelled from the spec: color scaled by a scalar. -/
def Color.smul (k : ℚ) (a : Color) : Color := ⟨k * a.red, k * a.green, k * a.blue⟩

/-- Modelled from the spec: the Phong shading of one light — ambient always,
diffuse and specular only when the light is in front of the surface and its
reflection faces the eye. -/
def lighting (sq : ℚ → ℚ) (m : Material) (light : PointLight)
    (point eyev normalv : V3) : Color :=
  let effective := Color.mul m.color light.intensity
  let lightv := normalizeWith sq (V3.sub light.position point)
  let ambient := Color.smul m.ambient effective
  let lightDotNormal := V3.dot lightv normalv
  if lightDotNormal < 0 then ambient
  else
    let diffuse := Color.smul (m.diffuse * lightDotNormal) effective
    let reflectv := reflectV (V3.neg lightv) normalv
    let reflectDotEye := V3.dot reflectv eyev
    if reflectDotEye ≤ 0 then Color.add ambient diffuse
    else
      let specular := Color.smul (m.specular * reflectDotEye ^ m.shininess) light.intensity
      Color.add (Color.add ambient diffuse) specular

/-- Modelled from the spec: `color_at(world, camera, px, py)` — generate the
pixel's ray, find the nearest positive-t hit over all shapes, return black on a
miss, otherwise shade the hit once per light and sum; the surface normal is
flipped to oppose the eye when needed. -/
def color_at (sq : ℚ → ℚ) (w : World) (c : Camera) (px py : ℕ) : Color :=
  let ray := ray_for_pixel sq c px py
  let cands := (w.spheres.map (fun s => (sphereIntersect sq ray).map (fun t => (t, s)))).flatten
  match hitCandidate cands with
  | none => ⟨0, 0, 0⟩
  | some (t, s) =>
    let point := ray.position t
    let eyev := normalizeWith sq (V3.neg ray.direction)
    let normalv := normalizeWith sq point
    let normalv := if V3.dot normalv eyev < 0 then V3.neg normalv else normalv
    (w.lights.map (fun light => lighting sq s.material light point eyev normalv)).foldl
      Color.add ⟨0, 0, 0⟩

/-- Modelled from the spec: state-passing view of one engine call — the engine
returns its color and hands the world/camera pair back untouched. -/
def color_at_call (sq : ℚ → ℚ) (wc : World × Camera) (px py : ℕ) :
    (World × Camera) × Color :=
  (wc, color_at sq wc.1 wc.2 px py)

/-! The driver, embedded from `www/index.js`. -/

/-- Raster width, `CANVAS_WIDTH` in `index.js`, also assigned to
`canvas.width`. -/
def CANVAS_WIDTH : ℕ := 600

/-- Raster height, `CANVAS_HEIGHT` in `index.js`, also assigned to
`canvas.height`. -/
def CANVAS_HEIGHT : ℕ := 300

/-- Floor of a nonnegative rational, computably (`x.num.toNat / x.den`). -/
def natFloorQ (x : ℚ) : ℕ := x.num.toNat / x.den

/-- JavaScript `ToUint8Clamp`, the conversion a `Uint8ClampedArray` store such
as `imageData.data[0] = 255 * color.red` performs: clamp to [0, 255], then
round to the nearest integer with ties going to the even integer. -/
def toUint8Clamp (x : ℚ) : ℕ :=
  if x ≤ 0 then 0
  else if 255 ≤ x then 255
  else if (natFloorQ x : ℚ) + 1/2 < x then natFloorQ x + 1
  else if x < (natFloorQ x : ℚ) + 1/2 then natFloorQ x
  else if natFloorQ x % 2 = 1 then natFloorQ x + 1 else natFloorQ x

/-- The signature of the driver's opaque wasm import `wasm.color_at`. -/
abbrev EngineFn := World → Camera → ℕ → ℕ → Color

/-- One 1x1 `putImageData` performed by the driver: target pixel plus the four
stored channel bytes. -/
structure PixelWrite where
  i : ℕ
  j : ℕ
  r : ℕ
  g : ℕ
  b : ℕ
  a : ℕ
deriving DecidableEq

/-- The body of the driver's inner loop at pixel `(i, j)`: call
`color_at(world, camera, i, j)` once, then store the three scaled color bytes
and an opaque alpha through the `Uint8ClampedArray`. -/
def pixelWrite (e : EngineFn) (w : World) (c : Camera) (i j : ℕ) : PixelWrite :=
  let color := e w c i j
  { i := i, j := j,
    r := toUint8Clamp (255 * color.red),
    g := toUint8Clamp (255 * color.green),
    b := toUint8Clamp (255 * color.blue),
    a := 255 }

/-- The writes performed by the `setTimeout` callback for column `i`: all rows
`j = 0, …, canvas.height - 1` in order. -/
def columnTask (e : EngineFn) (w : World) (c : Camera) (i : ℕ) : List PixelWrite :=
  (List.range CANVAS_HEIGHT).map (fun j => pixelWrite e w c i j)

/-- The scheduled tasks of one render pass: one column task per
`i = 0, …, canvas.width - 1`, in order, each a separate `setTimeout` callback. -/
def renderTasks (e : EngineFn) (w : World) (c : Camera) : List (List PixelWrite) :=
  (List.range CANVAS_WIDTH).map (columnTask e w c)

/-- All pixel writes of one render pass, in execution order. -/
def renderTrace (e : EngineFn) (w : World) (c : Camera) : List PixelWrite :=
  (renderTasks e w c).flatten

/-- One call the driver makes to `wasm.color_at`: the arguments it passes. -/
structure EngineCall where
  world : World
  camera : Camera
  px : ℕ
  py : ℕ
deriving DecidableEq

/-- The calls to `wasm.color_at` a render pass makes, in execution order:
column by column, row by row, always passing the same world and camera. -/
def renderCalls (w : World) (c : Camera) : List EngineCall :=
  ((List.range CANVAS_WIDTH).map
    (fun i => (List.range CANVAS_HEIGHT).map (fun j => EngineCall.mk w c i j))).flatten

/-- A fallible engine: `none` models a `color_at` call that throws. -/
abbrev EngineFnE := World → Camera → ℕ → ℕ → Option Color

/-- The fallible pixel step: the four-channel write exists only if the
`color_at` call returned a color — nothing is stored when it throws. -/
def pixelWriteE (e : EngineFnE) (w : World) (c : Camera) (i j : ℕ) :
    Option PixelWrite :=
  (e w c i j).map (fun color =>
    { i := i, j := j,
      r := toUint8Clamp (255 * color.red),
      g := toUint8Clamp (255 * color.green),
      b := toUint8Clamp (255 * color.blue),
      a := 255 })

/-- Writes of one column until the first throwing pixel; the boolean records
whether the column completed (an uncaught exception stops the callback). -/
def takeUntilFail : List (Option PixelWrite) → List PixelWrite × Bool
  | [] => ([], true)
  | none :: _ => ([], false)
  | some wr :: rest =>
    let res := takeUntilFail rest
    (wr :: res.1, res.2)

/-- Column-by-column render with a fallible engine: an exception aborts its
column and, because `resolve` is never called, no further column is ever
scheduled. -/
def renderColumnsE (e : EngineFnE) (w : World) (c : Camera) : List ℕ → List PixelWrite
  | [] => []
  | i :: rest =>
    let res := takeUntilFail ((List.range CANVAS_HEIGHT).map (fun j => pixelWriteE e w c i j))
    if res.2 then res.1 ++ renderColumnsE e w c rest else res.1

/-- All pixel writes of a render pass whose engine may throw. -/
def renderTraceE (e : EngineFnE) (w : World) (c : Camera) : List PixelWrite :=
  renderColumnsE e w c (List.range CANVAS_WIDTH)

/-! The two click handlers and the module initialization of `index.js`. -/

/-- A user interaction the page can receive. -/
inductive DriverEvent
  | freezedClick
  | renderClick
deriving DecidableEq

/-- The text the freezed-button handler displays after its counter reached
`n`. -/
def freezedMessage (n : ℕ) : String :=
  "No, you are not! (" ++ toString n ++ ")"

/-- The page state the driver owns: the probe-button counter and text, the
world and camera built at module load, and the canvas contents (as the list of
writes applied to it). -/
structure DriverState where
  count : ℕ
  freezedText : Option String
  world : World
  camera : Camera
  canvas : List PixelWrite
deriving DecidableEq

/-- Module initialization of `index.js`: `count = 0`, one `create_world()`, one
`create_camera(CANVAS_WIDTH, CANVAS_HEIGHT)`, canvas untouched. -/
def initState : DriverState :=
  { count := 0, freezedText := none, world := create_world,
    camera := create_camera CANVAS_WIDTH CANVAS_HEIGHT, canvas := [] }

/-- The two event handlers: the freezed button increments `count` and rewrites
its text; the render button runs a full render pass against the state's world
and camera, writing into the canvas.  Neither handler touches `world` or
`camera`. -/
def runEvent (e : EngineFn) (s : DriverState) : DriverEvent → DriverState
  | .freezedClick =>
    { s with count := s.count + 1,
             freezedText := some (freezedMessage (s.count + 1)) }
  | .renderClick =>
    { s with canvas := s.canvas ++ renderTrace e s.world s.camera }

/-- The driver state after a sequence of click events. -/
def runEvents (e : EngineFn) (evts : List DriverEvent) (s : DriverState) : DriverState :=
  evts.foldl (runEvent e) s

/-! The cooperative event-loop schedule of render passes. -/

/-- One pending `setTimeout` callback: pass identifier plus the column it will
process. -/
structure ColTask where
  pass : ℕ
  col : ℕ
deriving DecidableEq

/-- Event-loop effect of running one column task in front of queue `rest`: the
pass's next column, if any, is appended at the back of the queue (the `await` /
`setTimeout(..., 0)` round trip yields to every already queued task). -/
def stepQueue (t : ColTask) (rest : List ColTask) : List ColTask :=
  if t.col + 1 < CANVAS_WIDTH then rest ++ [⟨t.pass, t.col + 1⟩] else rest

/-- Execution order of the event loop: repeatedly run the front task and
re-queue its continuation, for a given amount of fuel. -/
def runOrder : ℕ → List ColTask → List ColTask
  | 0, _ => []
  | _ + 1, [] => []
  | n + 1, t :: rest => t :: runOrder n (stepQueue t rest)

/-- The column tasks of pass `p` from column `k`, `m` of them, in order. -/
def colTasks (p : ℕ) : ℕ → ℕ → List ColTask
  | _, 0 => []
  | k, m + 1 => ⟨p, k⟩ :: colTasks p (k + 1) m

/-- Strict alternation of two passes starting at the same column: `m` rounds of
one column of each. -/
def pairSchedule (a b : ℕ) : ℕ → ℕ → List ColTask
  | _, 0 => []
  | k, m + 1 => ⟨a, k⟩ :: ⟨b, k⟩ :: pairSchedule a b (k + 1) m

/-- What a render-button click does to the pending task queue: it appends the
first column task of a fresh pass, unconditionally — the handler consults no
in-progress flag. -/
def enqueuePass (p : ℕ) (q : List ColTask) : List ColTask := q ++ [⟨p, 0⟩]

/-! Spec-side formulas the claims compare the driver against. -/

/-- Clamp a component to [0, 1], as written in the spec's byte formula. -/
def clamp01 (x : ℚ) : ℚ := max 0 (min x 1)

/-- Round to the nearest integer with ties to the even integer — the rounding
a `Uint8ClampedArray` store actually uses. -/
def rne (x : ℚ) : ℤ :=
  if x - ⌊x⌋ < 1/2 then ⌊x⌋
  else if 1/2 < x - ⌊x⌋ then ⌊x⌋ + 1
  else if 2 ∣ ⌊x⌋ then ⌊x⌋ else ⌊x⌋ + 1

/-! Generic helpers: counting, membership and length over a W x H grid of
values laid out column by column. -/

lemma countP_flatten {α : Type} (p : α → Bool) :
    ∀ L : List (List α), L.flatten.countP p = (L.map (fun l => l.countP p)).sum
  | [] => rfl
  | l :: L => by
    simp only [List.flatten_cons, List.countP_append, List.map_cons, List.sum_cons,
      countP_flatten p L]

lemma countP_range_eq_one (q : ℕ → Bool) (j : ℕ)
    (hq : ∀ k, q k = true ↔ k = j) :
    ∀ n, (List.range n).countP q = if j < n then 1 else 0 := by
  intro n
  induction n with
  | zero => simp
  | succ n ih =>
    rw [List.range_succ, List.countP_append, ih]
    rcases Nat.lt_trichotomy j n with h | h | h
    · have hn : q n = false := by
        cases hqn : q n
        · rfl
        · exact absurd ((hq n).mp hqn) (by omega)
      simp [List.countP_cons, hn, h, Nat.lt_succ_of_lt h]
    · subst h
      have hn : q j = true := (hq j).mpr rfl
      simp [List.countP_cons, hn, Nat.lt_irrefl, Nat.lt_succ_self]
    · have hn : q n = false := by
        cases hqn : q n
        · rfl
        · exact absurd ((hq n).mp hqn) (by omega)
      have h1 : ¬ j < n := by omega
      have h2 : ¬ j < n + 1 := by omega
      simp [List.countP_cons, hn, h1, h2]

lemma sum_map_range_indicator (v i : ℕ) :
    ∀ n, ((List.range n).map (fun k => if k = i then v else 0)).sum
      = if i < n then v else 0 := by
  intro n
  induction n with
  | zero => simp
  | succ n ih =>
    rw [List.range_succ, List.map_append, List.sum_append, ih]
    rcases Nat.lt_trichotomy i n with h | h | h
    · simp [h, Nat.lt_succ_of_lt h, Nat.ne_of_gt h]
    · subst h
      simp [Nat.lt_irrefl, Nat.lt_succ_self]
    · have h1 : ¬ i < n := by omega
      have h2 : ¬ i < n + 1 := by omega
      have h3 : n ≠ i := by omega
      simp [h1, h2, h3]

lemma countP_grid {α : Type} (f : ℕ → ℕ → α) (p : α → Bool) (W H i j : ℕ)
    (hp : ∀ a b, p (f a b) = true ↔ a = i ∧ b = j) :
    (((List.range W).map (fun a => (List.range H).map (f a))).flatten.countP p)
      = if i < W ∧ j < H then 1 else 0 := by
  rw [countP_flatten, List.map_map]
  have h1 : ∀ a ∈ List.range W,
      ((fun l => List.countP p l) ∘ fun a => (List.range H).map (f a)) a
        = (fun k => if k = i then (if j < H then 1 else 0) else 0) a := by
    intro a _
    simp only [Function.comp]
    rw [List.countP_map]
    by_cases ha : a = i
    · subst ha
      rw [if_pos rfl]
      exact countP_range_eq_one _ j (fun k => by
        simpa [Function.comp] using (hp a k).trans (by simp)) H
    · rw [if_neg ha]
      rw [List.countP_eq_zero]
      intro b _
      intro hb
      exact ha ((hp a b).mp (by simpa [Function.comp] using hb)).1
  rw [List.map_congr_left h1, sum_map_range_indicator]
  by_cases hi : i < W <;> by_cases hj : j < H <;> simp [hi, hj]

lemma mem_grid {α : Type} (f : ℕ → ℕ → α) (W H : ℕ) (x : α) :
    x ∈ ((List.range W).map (fun a => (List.range H).map (f a))).flatten
      ↔ ∃ a b, a < W ∧ b < H ∧ x = f a b := by
  rw [List.mem_flatten]
  constructor
  · rintro ⟨l, hl, hx⟩
    rw [List.mem_map] at hl
    rcases hl with ⟨a, ha, rfl⟩
    rw [List.mem_map] at hx
    rcases hx with ⟨b, hb, rfl⟩
    exact ⟨a, b, List.mem_range.mp ha, List.mem_range.mp hb, rfl⟩
  · rintro ⟨a, b, ha, hb, rfl⟩
    exact ⟨(List.range H).map (f a),
      List.mem_map.mpr ⟨a, List.mem_range.mpr ha, rfl⟩,
      List.mem_map.mpr ⟨b, List.mem_range.mpr hb, rfl⟩⟩

lemma sum_map_const_range (W H : ℕ) :
    ((List.range W).map (fun _ => H)).sum = W * H := by
  induction W with
  | zero => simp
  | succ n ih =>
    rw [List.range_succ, List.map_append, List.sum_append, ih]
    simp [Nat.succ_mul]

lemma length_grid {α : Type} (f : ℕ → ℕ → α) (W H : ℕ) :
    (((List.range W).map (fun a => (List.range H).map (f a))).flatten).length
      = W * H := by
  rw [List.length_flatten, List.map_map]
  have h1 : ∀ a ∈ List.range W,
      (List.length ∘ fun a => (List.range H).map (f a)) a = (fun _ => H) a := by
    intro a _
    simp
  rw [List.map_congr_left h1, sum_map_const_range]

/-! The JS byte conversion against the spec's clamp-scale-round formula. -/

lemma natFloorQ_eq_floor (y : ℚ) (h : 0 ≤ y) : ((natFloorQ y : ℕ) : ℤ) = ⌊y⌋ := by
  have hnum : 0 ≤ y.num := Rat.num_nonneg.mpr h
  rw [natFloorQ, Rat.floor_def, Int.ofNat_tdiv, Int.toNat_of_nonneg hnum,
    Int.tdiv_eq_ediv hnum (by positivity)]

lemma rne_zero : rne 0 = 0 := by norm_num [rne]

lemma rne_255 : rne 255 = 255 := by norm_num [rne]

lemma toUint8Clamp_mid (y : ℚ) (h0 : 0 < y) (h255 : y < 255) :
    (toUint8Clamp y : ℤ) = rne y := by
  have hle : ¬ y ≤ 0 := not_le.mpr h0
  have hge : ¬ (255 : ℚ) ≤ y := not_le.mpr h255
  have hfl : ((natFloorQ y : ℕ) : ℤ) = ⌊y⌋ := natFloorQ_eq_floor y h0.le
  have hflq : ((natFloorQ y : ℕ) : ℚ) = ((⌊y⌋ : ℤ) : ℚ) := by
    rw [← hfl]
    push_cast
    ring
  rw [toUint8Clamp, if_neg hle, if_neg hge, rne]
  by_cases h1 : y - ⌊y⌋ < 1/2
  · have c1 : ¬ ((natFloorQ y : ℚ) + 1/2 < y) := by rw [hflq]; linarith
    have c2 : y < (natFloorQ y : ℚ) + 1/2 := by rw [hflq]; linarith
    rw [if_neg c1, if_pos c2, if_pos h1]
    exact hfl
  · by_cases h2 : 1/2 < y - ⌊y⌋
    · have c1 : (natFloorQ y : ℚ) + 1/2 < y := by rw [hflq]; linarith
      rw [if_pos c1, if_neg h1, if_pos h2]
      push_cast
      omega
    · have heq : y - ⌊y⌋ = 1/2 := by linarith
      have c1 : ¬ ((natFloorQ y : ℚ) + 1/2 < y) := by rw [hflq]; linarith
      have c2 : ¬ (y < (natFloorQ y : ℚ) + 1/2) := by rw [hflq]; linarith
      rw [if_neg c1, if_neg c2, if_neg h1, if_neg h2]
      by_cases hev : 2 ∣ ⌊y⌋
      · have hm : ¬ (natFloorQ y % 2 = 1) := by omega
        rw [if_pos hev, if_neg hm]
        exact hfl
      · have hm : natFloorQ y % 2 = 1 := by omega
        rw [if_neg hev, if_pos hm]
        push_cast
        omega

lemma toUint8Clamp_eq_rne (x : ℚ) :
    (toUint8Clamp (255 * x) : ℤ) = rne (255 * clamp01 x) := by
  rcases le_or_lt x 0 with hx | hx
  · have h1 : (255 : ℚ) * x ≤ 0 := by nlinarith
    have h2 : clamp01 x = 0 := by
      rw [clamp01, min_eq_left (by linarith : x ≤ 1), max_eq_left hx]
    rw [toUint8Clamp, if_pos h1, h2, mul_zero, rne_zero]
    simp
  · rcases le_or_lt 1 x with hx1 | hx1
    · have h1 : (255 : ℚ) ≤ 255 * x := by nlinarith
      have h2 : ¬ ((255 : ℚ) * x ≤ 0) := by
        push_neg
        nlinarith
      have h3 : clamp01 x = 1 := by
        rw [clamp01, min_eq_right hx1, max_eq_right (by norm_num : (0:ℚ) ≤ 1)]
      rw [toUint8Clamp, if_neg h2, if_pos h1, h3, mul_one, rne_255]
      norm_num
    · have h2 : clamp01 x = x := by
        rw [clamp01, min_eq_left hx1.le, max_eq_right hx.le]
      rw [h2]
      exact toUint8Clamp_mid (255 * x) (by nlinarith) (by nlinarith)

lemma toUint8Clamp_half : toUint8Clamp (255 * (1/510)) = 0 := by
  have h : (255 : ℚ) * (1/510) = 1/2 := by norm_num
  have hfl : ⌊(1/2 : ℚ)⌋ = 0 := by norm_num
  have hn : natFloorQ ((1:ℚ)/2) = 0 := by
    have hb := natFloorQ_eq_floor (1/2) (by norm_num)
    omega
  rw [h, toUint8Clamp, if_neg (by norm_num), if_neg (by norm_num), hn]
  norm_num

/-! Small facts about the driver's write and call records. -/

@[simp] lemma pixelWrite_i (e : EngineFn) (w : World) (c : Camera) (i j : ℕ) :
    (pixelWrite e w c i j).i = i := rfl

@[simp] lemma pixelWrite_j (e : EngineFn) (w : World) (c : Camera) (i j : ℕ) :
    (pixelWrite e w c i j).j = j := rfl

@[simp] lemma pixelWrite_a (e : EngineFn) (w : World) (c : Camera) (i j : ℕ) :
    (pixelWrite e w c i j).a = 255 := rfl

lemma renderTrace_eq_grid (e : EngineFn) (w : World) (c : Camera) :
    renderTrace e w c
      = ((List.range CANVAS_WIDTH).map
          (fun a => (List.range CANVAS_HEIGHT).map (fun b => pixelWrite e w c a b))).flatten := rfl

lemma renderCalls_eq_grid (w : World) (c : Camera) :
    renderCalls w c
      = ((List.range CANVAS_WIDTH).map
          (fun a => (List.range CANVAS_HEIGHT).map (fun b => EngineCall.mk w c a b))).flatten := rfl

/-! Facts about the cooperative event-loop schedule. -/

lemma runOrder_nil_queue : ∀ n, runOrder n [] = [] := by
  intro n
  cases n with
  | zero => rfl
  | succ n => rfl

lemma colTasks_length (p : ℕ) : ∀ m k, (colTasks p k m).length = m := by
  intro m
  induction m with
  | zero => intro k; rfl
  | succ m ih =>
    intro k
    show (ColTask.mk p k :: colTasks p (k + 1) m).length = m + 1
    rw [List.length_cons, ih (k + 1)]

lemma pairSchedule_length (a b : ℕ) : ∀ m k, (pairSchedule a b k m).length = 2 * m := by
  intro m
  induction m with
  | zero => intro k; rfl
  | succ m ih =>
    intro k
    show (ColTask.mk a k :: ColTask.mk b k :: pairSchedule a b (k + 1) m).length = 2 * (m + 1)
    rw [List.length_cons, List.length_cons, ih (k + 1)]
    omega

lemma runOrder_single (p : ℕ) :
    ∀ m k extra, k + 1 + m = CANVAS_WIDTH →
      runOrder (m + 1 + extra) [⟨p, k⟩] = colTasks p k (m + 1) := by
  intro m
  induction m with
  | zero =>
    intro k extra hk
    have h1 : ¬ k + 1 < CANVAS_WIDTH := by omega
    have hf : 0 + 1 + extra = extra + 1 := by omega
    rw [hf]
    show ColTask.mk p k :: runOrder extra (stepQueue ⟨p, k⟩ []) = colTasks p k (0 + 1)
    rw [stepQueue, if_neg h1, runOrder_nil_queue]
    rfl
  | succ m ih =>
    intro k extra hk
    have h1 : k + 1 < CANVAS_WIDTH := by omega
    have hf : m + 1 + 1 + extra = (m + 1 + extra) + 1 := by omega
    rw [hf]
    show ColTask.mk p k :: runOrder (m + 1 + extra) (stepQueue ⟨p, k⟩ []) = colTasks p k (m + 1 + 1)
    rw [stepQueue, if_pos h1, List.nil_append, ih (k + 1) extra (by omega)]
    rfl

lemma runOrder_pair (a b : ℕ) :
    ∀ m k, k + 1 + m = CANVAS_WIDTH →
      runOrder (2 * (m + 1)) [⟨a, k⟩, ⟨b, k⟩] = pairSchedule a b k (m + 1) := by
  intro m
  induction m with
  | zero =>
    intro k hk
    have h1 : ¬ k + 1 < CANVAS_WIDTH := by omega
    have hf : 2 * (0 + 1) = 1 + 1 := by norm_num
    rw [hf]
    show ColTask.mk a k :: runOrder 1 (stepQueue ⟨a, k⟩ [⟨b, k⟩]) = pairSchedule a b k (0 + 1)
    rw [stepQueue, if_neg h1]
    show ColTask.mk a k :: ColTask.mk b k :: runOrder 0 (stepQueue ⟨b, k⟩ []) = pairSchedule a b k (0 + 1)
    rfl
  | succ m ih =>
    intro k hk
    have h1 : k + 1 < CANVAS_WIDTH := by omega
    have hf : 2 * (m + 1 + 1) = (2 * (m + 1) + 1) + 1 := by ring
    rw [hf]
    show ColTask.mk a k :: runOrder (2 * (m + 1) + 1) (stepQueue ⟨a, k⟩ [⟨b, k⟩])
      = pairSchedule a b k (m + 1 + 1)
    rw [stepQueue, if_pos h1]
    show ColTask.mk a k :: ColTask.mk b k
        :: runOrder (2 * (m + 1)) (stepQueue ⟨b, k⟩ [⟨a, k + 1⟩])
      = pairSchedule a b k (m + 1 + 1)
    rw [stepQueue, if_pos h1]
    show ColTask.mk a k :: ColTask.mk b k
        :: runOrder (2 * (m + 1)) [⟨a, k + 1⟩, ⟨b, k + 1⟩]
      = pairSchedule a b k (m + 1 + 1)
    rw [ih (k + 1) (by omega)]
    rfl

/-! Facts about the page's event handlers. -/

lemma runEvent_world (e : EngineFn) (s : DriverState) :
    ∀ ev, (runEvent e s ev).world = s.world := by
  intro ev
  cases ev <;> rfl

lemma runEvent_camera (e : EngineFn) (s : DriverState) :
    ∀ ev, (runEvent e s ev).camera = s.camera := by
  intro ev
  cases ev <;> rfl

lemma runEvents_world (e : EngineFn) :
    ∀ evts s, (runEvents e evts s).world = s.world := by
  intro evts
  induction evts with
  | nil => intro s; rfl
  | cons ev evts ih =>
    intro s
    rw [runEvents, List.foldl_cons]
    have h := ih (runEvent e s ev)
    rw [runEvents] at h
    rw [h, runEvent_world]

lemma runEvents_camera (e : EngineFn) :
    ∀ evts s, (runEvents e evts s).camera = s.camera := by
  intro evts
  induction evts with
  | nil => intro s; rfl
  | cons ev evts ih =>
    intro s
    rw [runEvents, List.foldl_cons]
    have h := ih (runEvent e s ev)
    rw [runEvents] at h
    rw [h, runEvent_camera]

lemma runEvents_freezed (e : EngineFn) :
    ∀ n s, ((runEvents e (List.replicate n .freezedClick) s).count = s.count + n) ∧
      ((runEvents e (List.replicate n .freezedClick) s).canvas = s.canvas) ∧
      (1 ≤ n → (runEvents e (List.replicate n .freezedClick) s).freezedText
        = some (freezedMessage (s.count + n))) := by
  intro n
  induction n with
  | zero =>
    intro s
    exact ⟨rfl, rfl, fun h => absurd h (by omega)⟩
  | succ n ih =>
    intro s
    rw [List.replicate_succ, runEvents, List.foldl_cons]
    have h := ih (runEvent e s .freezedClick)
    rw [runEvents] at h
    have hc : (runEvent e s .freezedClick).count = s.count + 1 := rfl
    have hv : (runEvent e s .freezedClick).canvas = s.canvas := rfl
    rcases h with ⟨h1, h2, h3⟩
    refine ⟨?_, ?_, ?_⟩
    · rw [h1, hc]
      omega
    · rw [h2, hv]
    · intro _
      rcases Nat.eq_zero_or_pos n with hn | hn
      · subst hn
        show (runEvent e s .freezedClick).freezedText = _
        show some (freezedMessage (s.count + 1)) = some (freezedMessage (s.count + (0 + 1)))
        rw [Nat.zero_add]
      · rw [h3 hn, hc]
        have : s.count + 1 + n = s.count + (n + 1) := by omega
        rw [this]

/-! The claims. -/

/-- C1: a render pass calls `color_at` exactly once for every pixel coordinate
(i, j) with i < 600 and j < 300 — the raster dimensions the driver passed to
`create_camera` — and never for an out-of-range coordinate; every call passes
the unchanged world/camera and in-range pixel coordinates, and the color
returned for (i, j) is written at exactly that pixel and no other: the write
whose bytes are scaled from `color_at(world, camera, i, j)` occurs exactly
once, as does the write keyed (i, j). -/
theorem colorAt_called_once_per_pixel (e : EngineFn) (w : World) (c : Camera) (i j : ℕ) :
    (renderCalls w c).countP
        (fun cl => decide (cl.px = i) && decide (cl.py = j))
      = (if i < CANVAS_WIDTH ∧ j < CANVAS_HEIGHT then 1 else 0) ∧
    (renderCalls w c).all
        (fun cl => decide (cl.world = w) && decide (cl.camera = c)
          && decide (cl.px < CANVAS_WIDTH) && decide (cl.py < CANVAS_HEIGHT)) = true ∧
    (create_camera CANVAS_WIDTH CANVAS_HEIGHT).width = CANVAS_WIDTH ∧
    (create_camera CANVAS_WIDTH CANVAS_HEIGHT).height = CANVAS_HEIGHT ∧
    (renderTrace e w c).countP
        (fun wr => decide (wr = pixelWrite e w c i j))
      = (if i < CANVAS_WIDTH ∧ j < CANVAS_HEIGHT then 1 else 0) ∧
    (renderTrace e w c).countP
        (fun wr => decide (wr.i = i) && decide (wr.j = j))
      = (if i < CANVAS_WIDTH ∧ j < CANVAS_HEIGHT then 1 else 0) := by
  refine ⟨?_, ?_, rfl, rfl, ?_, ?_⟩
  · rw [renderCalls_eq_grid]
    exact countP_grid (fun a b => EngineCall.mk w c a b) _ CANVAS_WIDTH CANVAS_HEIGHT i j
      (by intro a b; simp)
  · rw [List.all_eq_true]
    intro cl hcl
    rw [renderCalls_eq_grid] at hcl
    rcases (mem_grid _ _ _ _).mp hcl with ⟨a, b, ha, hb, rfl⟩
    simp [ha, hb]
  · rw [renderTrace_eq_grid]
    refine countP_grid (pixelWrite e w c) _ CANVAS_WIDTH CANVAS_HEIGHT i j ?_
    intro a b
    constructor
    · intro h
      have h2 : pixelWrite e w c a b = pixelWrite e w c i j := of_decide_eq_true h
      refine ⟨?_, ?_⟩
      · have h3 := congrArg PixelWrite.i h2
        simpa using h3
      · have h3 := congrArg PixelWrite.j h2
        simpa using h3
    · rintro ⟨rfl, rfl⟩
      simp
  · rw [renderTrace_eq_grid]
    refine countP_grid (pixelWrite e w c) _ CANVAS_WIDTH CANVAS_HEIGHT i j ?_
    intro a b
    simp

/-- An engine whose red component 1/510 scales to the rounding tie 0.5. -/
def tieEngine : EngineFn := fun _ _ _ _ => ⟨1/510, 0, 0⟩

/-- C2 (counterexample): for the pixel write of an engine color with red
component 1/510, the byte the driver stores is 0 while the claimed formula
`round(255 * clamp(red, 0, 1))` yields `round(0.5) = 1` — the
`Uint8ClampedArray` store rounds ties to even, not half up, so the claim as
stated is false. -/
theorem byte_formula_round_cex :
    ¬ (((pixelWrite tieEngine create_world
            (create_camera CANVAS_WIDTH CANVAS_HEIGHT) 0 0).r : ℤ)
        = round (255 * clamp01 ((tieEngine create_world
            (create_camera CANVAS_WIDTH CANVAS_HEIGHT) 0 0).red))) := by
  intro hcon
  have hr : (pixelWrite tieEngine create_world
      (create_camera CANVAS_WIDTH CANVAS_HEIGHT) 0 0).r = 0 := toUint8Clamp_half
  have hcl : clamp01 ((tieEngine create_world
      (create_camera CANVAS_WIDTH CANVAS_HEIGHT) 0 0).red) = 1/510 := by
    show clamp01 (1/510) = 1/510
    rw [clamp01, min_eq_left (by norm_num : (1:ℚ)/510 ≤ 1),
      max_eq_right (by norm_num : (0:ℚ) ≤ 1/510)]
  rw [hr, hcl] at hcon
  have hro : round ((255:ℚ) * (1/510)) = 1 := by
    have h : (255:ℚ) * (1/510) = 1/2 := by norm_num
    rw [h, round_eq]
    norm_num
  rw [hro] at hcon
  norm_num at hcon

/-- C2 (amended): every byte component the driver stores equals
`255 * clamp(component, 0, 1)` rounded to the nearest integer with ties to the
even integer — the `Uint8ClampedArray` rounding — applied to the corresponding
component of the color `color_at` returned for that pixel. -/
theorem byte_formula_ties_to_even (e : EngineFn) (w : World) (c : Camera) (i j : ℕ) :
    ((pixelWrite e w c i j).r : ℤ) = rne (255 * clamp01 ((e w c i j).red)) ∧
    ((pixelWrite e w c i j).g : ℤ) = rne (255 * clamp01 ((e w c i j).green)) ∧
    ((pixelWrite e w c i j).b : ℤ) = rne (255 * clamp01 ((e w c i j).blue)) :=
  ⟨toUint8Clamp_eq_rne _, toUint8Clamp_eq_rne _, toUint8Clamp_eq_rne _⟩

/-- C3: a render pass is one task per raster column, in column order — task i
writes exactly column i, all rows top to bottom, so no two columns are
processed in the same task — and completing a column task appends the pass's
next column task behind every already queued task, yielding to the host event
loop between consecutive columns. -/
theorem columns_processed_in_order_one_task_each
    (e : EngineFn) (w : World) (c : Camera) (p k : ℕ) (rest : List ColTask) :
    (renderTasks e w c).map (fun t => t.map (fun wr => (wr.i, wr.j)))
      = (List.range CANVAS_WIDTH).map
          (fun i => (List.range CANVAS_HEIGHT).map (fun j => (i, j))) ∧
    (renderTasks e w c).length = CANVAS_WIDTH ∧
    stepQueue ⟨p, k⟩ rest
      = (if k + 1 < CANVAS_WIDTH then rest ++ [⟨p, k + 1⟩] else rest) := by
  refine ⟨?_, ?_, rfl⟩
  · rw [renderTasks, List.map_map]
    apply List.map_congr_left
    intro a _
    show (columnTask e w c a).map (fun wr => (wr.i, wr.j)) = _
    rw [columnTask, List.map_map]
    apply List.map_congr_left
    intro b _
    simp
  · rw [renderTasks, List.length_map, List.length_range]

/-- C4: the driver constructs the world and the camera exactly once, at module
load before any render, and no handler ever mutates them: after any sequence of
clicks the state still holds `create_world()` and `create_camera(600, 300)`,
and every `color_at` call of a render pass from that state receives exactly
those two objects. -/
theorem world_camera_constructed_once_never_mutated (e : EngineFn) (evts : List DriverEvent) :
    initState.world = create_world ∧
    initState.camera = create_camera CANVAS_WIDTH CANVAS_HEIGHT ∧
    (runEvents e evts initState).world = create_world ∧
    (runEvents e evts initState).camera = create_camera CANVAS_WIDTH CANVAS_HEIGHT ∧
    (renderCalls (runEvents e evts initState).world
        (runEvents e evts initState).camera).all
      (fun cl => decide (cl.world = create_world)
        && decide (cl.camera = create_camera CANVAS_WIDTH CANVAS_HEIGHT)) = true := by
  have hw : (runEvents e evts initState).world = create_world :=
    runEvents_world e evts initState
  have hc : (runEvents e evts initState).camera
      = create_camera CANVAS_WIDTH CANVAS_HEIGHT :=
    runEvents_camera e evts initState
  refine ⟨rfl, rfl, hw, hc, ?_⟩
  rw [hw, hc, List.all_eq_true]
  intro cl hcl
  rw [renderCalls_eq_grid] at hcl
  rcases (mem_grid _ _ _ _).mp hcl with ⟨a, b, _, _, rfl⟩
  simp

/-- C5: `color_at` is a deterministic pure function of (world, camera, pixel):
two calls with identical arguments return identical colors, and viewed as a
state-passing call the engine hands the world/camera pair back unchanged.  The
engine is modelled from the spec as a function over its square-root primitive,
so determinism and purity hold definitionally for every such primitive. -/
theorem color_at_deterministic_pure (sq : ℚ → ℚ) (w : World) (c : Camera) (px py : ℕ) :
    color_at sq w c px py = color_at sq w c px py ∧
    (color_at_call sq (w, c) px py).1 = (w, c) ∧
    (color_at_call sq (w, c) px py).2 = color_at sq w c px py :=
  ⟨rfl, rfl, rfl⟩

/-- C6: a started render pass runs to completion — the event loop, given the
pass's first column task and any surplus fuel, executes exactly the 600 column
tasks of the pass in order and nothing else (there is no cancellation), and the
pass writes the whole raster: 600 * 300 writes, exactly one per in-range pixel
key and none out of range. -/
theorem render_runs_to_completion (e : EngineFn) (w : World) (c : Camera)
    (p extra i j : ℕ) :
    runOrder (CANVAS_WIDTH + extra) [⟨p, 0⟩] = colTasks p 0 CANVAS_WIDTH ∧
    (colTasks p 0 CANVAS_WIDTH).length = CANVAS_WIDTH ∧
    (renderTrace e w c).length = CANVAS_WIDTH * CANVAS_HEIGHT ∧
    (renderTrace e w c).countP
        (fun wr => decide (wr.i = i) && decide (wr.j = j))
      = (if i < CANVAS_WIDTH ∧ j < CANVAS_HEIGHT then 1 else 0) := by
  refine ⟨?_, colTasks_length p CANVAS_WIDTH 0, ?_, ?_⟩
  · have h := runOrder_single p 599 0 extra (by norm_num [CANVAS_WIDTH])
    have hf : 599 + 1 + extra = CANVAS_WIDTH + extra := by norm_num [CANVAS_WIDTH]
    rw [hf] at h
    have hm : (599 : ℕ) + 1 = CANVAS_WIDTH := by norm_num [CANVAS_WIDTH]
    rw [hm] at h
    exact h
  · rw [renderTrace_eq_grid]
    exact length_grid _ _ _
  · rw [renderTrace_eq_grid]
    refine countP_grid (pixelWrite e w c) _ CANVAS_WIDTH CANVAS_HEIGHT i j ?_
    intro a b
    simp

lemma mem_takeUntilFail :
    ∀ (l : List (Option PixelWrite)) (wr : PixelWrite),
      wr ∈ (takeUntilFail l).1 → some wr ∈ l := by
  intro l
  induction l with
  | nil =>
    intro wr h
    exact absurd h (by simp [takeUntilFail])
  | cons o rest ih =>
    intro wr h
    cases o with
    | none =>
      exact absurd h (by simp [takeUntilFail])
    | some w' =>
      replace h : wr ∈ w' :: (takeUntilFail rest).1 := h
      rcases List.mem_cons.mp h with h1 | h2
      · rw [h1]
        exact List.mem_cons_self _ _
      · exact List.mem_cons_of_mem _ (ih wr h2)

lemma renderColumnsE_mem (e : EngineFnE) (w : World) (c : Camera) :
    ∀ (cols : List ℕ) (wr : PixelWrite), wr ∈ renderColumnsE e w c cols →
      ∃ i j color, e w c i j = some color
        ∧ wr = pixelWrite (fun _ _ _ _ => color) w c i j := by
  intro cols
  induction cols with
  | nil =>
    intro wr h
    exact absurd h (by simp [renderColumnsE])
  | cons i rest ih =>
    intro wr h
    replace h : wr ∈ (if (takeUntilFail
          ((List.range CANVAS_HEIGHT).map (fun j => pixelWriteE e w c i j))).2
        then (takeUntilFail
            ((List.range CANVAS_HEIGHT).map (fun j => pixelWriteE e w c i j))).1
          ++ renderColumnsE e w c rest
        else (takeUntilFail
            ((List.range CANVAS_HEIGHT).map (fun j => pixelWriteE e w c i j))).1) := h
    have hcol : wr ∈ (takeUntilFail
          ((List.range CANVAS_HEIGHT).map (fun j => pixelWriteE e w c i j))).1
        → ∃ i j color, e w c i j = some color
          ∧ wr = pixelWrite (fun _ _ _ _ => color) w c i j := by
      intro hm
      have hsome := mem_takeUntilFail _ wr hm
      rw [List.mem_map] at hsome
      rcases hsome with ⟨j, _, hpw⟩
      rcases hec : e w c i j with _ | color
      · rw [pixelWriteE, hec] at hpw
        exact absurd hpw (by simp)
      · rw [pixelWriteE, hec] at hpw
        simp only [Option.map_some', Option.some.injEq] at hpw
        exact ⟨i, j, color, hec, hpw.symm⟩
    by_cases hok : (takeUntilFail
        ((List.range CANVAS_HEIGHT).map (fun j => pixelWriteE e w c i j))).2 = true
    · rw [if_pos hok] at h
      rcases List.mem_append.mp h with h1 | h2
      · exact hcol h1
      · exact ih wr h2
    · rw [if_neg hok] at h
      exact hcol h

/-- C7: per-pixel atomicity on failure — a pixel whose `color_at` call throws
gets no raster write: every write present in a (possibly aborted) render trace
comes from a call that returned a color, and the pixel's write is produced only
from such a returned color, never from a failed call. -/
theorem failed_pixel_never_written (e : EngineFnE) (w : World) (c : Camera) (i j : ℕ) :
    (renderTraceE e w c).all (fun wr => (e w c wr.i wr.j).isSome) = true ∧
    pixelWriteE e w c i j
      = (e w c i j).map (fun color => pixelWrite (fun _ _ _ _ => color) w c i j) := by
  refine ⟨?_, rfl⟩
  rw [List.all_eq_true]
  intro wr hwr
  rw [renderTraceE] at hwr
  rcases renderColumnsE_mem e w c _ wr hwr with ⟨a, b, color, hec, rfl⟩
  simp only [pixelWrite_i, pixelWrite_j]
  rw [hec]
  rfl

/-- C8: every pixel write the driver performs stores alpha 255 (fully opaque),
for every engine and every render pass, also in a pass aborted by a throwing
engine. -/
theorem alpha_always_opaque (e : EngineFn) (eE : EngineFnE) (w : World) (c : Camera) :
    (renderTrace e w c).all (fun wr => decide (wr.a = 255)) = true ∧
    (renderTraceE eE w c).all (fun wr => decide (wr.a = 255)) = true := by
  constructor
  · rw [List.all_eq_true]
    intro wr hwr
    rw [renderTrace_eq_grid] at hwr
    rcases (mem_grid _ _ _ _).mp hwr with ⟨a, b, _, _, rfl⟩
    simp
  · rw [List.all_eq_true]
    intro wr hwr
    rw [renderTraceE] at hwr
    rcases renderColumnsE_mem eE w c _ wr hwr with ⟨a, b, color, _, rfl⟩
    simp

/-- C9: the render click handler has no re-entrancy guard — a click appends a
fresh pass's first column task to the pending queue whatever the queue already
holds, and two passes started at the same time interleave strictly column by
column on the event loop, each completing all 600 of its columns. -/
theorem render_click_unguarded_passes_interleave (a b p : ℕ) (q : List ColTask) :
    enqueuePass p q = q ++ [⟨p, 0⟩] ∧
    runOrder (2 * CANVAS_WIDTH) [⟨a, 0⟩, ⟨b, 0⟩] = pairSchedule a b 0 CANVAS_WIDTH ∧
    (pairSchedule a b 0 CANVAS_WIDTH).length = 2 * CANVAS_WIDTH := by
  refine ⟨rfl, ?_, pairSchedule_length a b CANVAS_WIDTH 0⟩
  have h := runOrder_pair a b 599 0 (by norm_num [CANVAS_WIDTH])
  have hm : (599 : ℕ) + 1 = CANVAS_WIDTH := by norm_num [CANVAS_WIDTH]
  rw [hm] at h
  exact h

/-- An engine returning constant black, used to instantiate driver runs. -/
def blackEngine : EngineFn := fun _ _ _ _ => ⟨0, 0, 0⟩

/-- C10: the responsiveness-probe button increments its counter by exactly one
per click starting from 0 — after the n-th click the counter is n and the
displayed text is exactly "No, you are not! (n)" — and clicking it never
touches the canvas, the world or the camera. -/
theorem freezed_button_counts_clicks (e : EngineFn) (n : ℕ) (h : 1 ≤ n) :
    (runEvents e (List.replicate n .freezedClick) initState).count = n ∧
    (runEvents e (List.replicate n .freezedClick) initState).freezedText
      = some ("No, you are not! (" ++ toString n ++ ")") ∧
    (runEvents e (List.replicate n .freezedClick) initState).canvas = initState.canvas ∧
    (runEvents e (List.replicate n .freezedClick) initState).world = initState.world ∧
    (runEvents e (List.replicate n .freezedClick) initState).camera = initState.camera ∧
    (∀ s : DriverState, (runEvent e s .freezedClick).count = s.count + 1 ∧
      (runEvent e s .freezedClick).canvas = s.canvas) := by
  have hf := runEvents_freezed e n initState
  have hcn : initState.count + n = n := by
    show 0 + n = n
    omega
  refine ⟨?_, ?_, hf.2.1, runEvents_world e _ initState, runEvents_camera e _ initState,
    fun s => ⟨rfl, rfl⟩⟩
  · rw [hf.1, hcn]
  · rw [hf.2.2 h, hcn]
    rfl

/-- Witness for C10 at two clicks of the probe button. -/
theorem freezed_button_counts_clicks_witness :
    1 ≤ 2 ∧
    (runEvents blackEngine (List.replicate 2 .freezedClick) initState).count = 2 ∧
    (runEvents blackEngine (List.replicate 2 .freezedClick) initState).freezedText
      = some "No, you are not! (2)" := by
  have h := freezed_button_counts_clicks blackEngine 2 (by decide)
  refine ⟨by decide, h.1, ?_⟩
  rw [h.2.1]
  rfl

end Raytracer
